import Mathlib

/-!
Verification development for the Docker mount consistency stress tester
(`docker_mount_tester.py`).

The measurement engine is shallowly embedded:

* the outcome of one `container.exec_run` call is an `ExecOutcome`
  (an exit code plus decoded output, or a raised exception);
* one iteration of a 1 ms poll loop is a `PollObs`: the wall-clock time at
  that iteration, the outcome of the presence test, the outcome of the
  `cat` content read (consulted only by file trials), and whether the host
  artifact removal attempted inside the loop's `try` would succeed;
* a trial's interaction with the outside world is a `TrialPlan`: the random
  draws made by the scheduler for that trial (`random.choice` of the kind,
  `random.randint` of the environment index), whether the host-side
  mutation (the `open`/`write`/`fsync`, or `os.makedirs`) raises, the
  recorded reference time `writeEnd`, the generated payload, and the finite
  sequence of poll iterations that occur before the `timeout` deadline
  expires (time strictly advances by at least the 1 ms sleep each
  iteration, so this sequence is finite);
* exceptions that propagate are modelled by `Option`: a function returns
  `none` exactly when the Python code raises out of it (for the poll
  helpers, `none` in the first component means the trial timed out and
  returned `None`).
-/

/-- Outcome of one `container.exec_run` call: an exit code with decoded
output, or a raised exception. -/
inductive ExecOutcome where
  | ok (exitCode : Int) (output : String)
  | raised
deriving DecidableEq

/-- One iteration of the 1 ms poll loop, as seen from the outside world:
the wall-clock time `now` at this iteration, the result of the presence
test (`test -f` / `test -d`), the result of the `cat` content read (only
consulted by file trials, and only when the presence test exited 0), and
whether the host-artifact removal attempted inside the loop body's `try`
succeeds at this iteration. -/
structure PollObs where
  now : ℚ
  testRes : ExecOutcome
  catRes : ExecOutcome
  removeOk : Bool
deriving DecidableEq

/-- The whitespace set of Python's `str.strip()` with no argument: space,
tab, newline, carriage return, vertical tab, form feed. -/
def pyIsSpace (c : Char) : Bool :=
  c == ' ' || c == '\t' || c == '\n' || c == '\r' || c == '\x0b' || c == '\x0c'

/-- Python's `str.strip()`: drop leading and trailing whitespace. -/
def pyStrip (s : String) : String :=
  String.mk (((s.data.dropWhile pyIsSpace).reverse.dropWhile pyIsSpace).reverse)

/-- The condition under which the file poll loop's body reaches the
`os.remove`/`return` statements at one iteration: the presence test exited
0, the `cat` exited 0, and the decoded output equals the payload after
stripping surrounding whitespace:
`cat_result.output.decode().strip() == content`. -/
def fileMatchStep (content : String) (o : PollObs) : Bool :=
  match o.testRes with
  | .raised => false
  | .ok code _ =>
    code == 0 &&
      (match o.catRes with
       | .raised => false
       | .ok ccode out => ccode == 0 && pyStrip out == content)

/-- The condition under which the directory poll loop's body reaches the
`shutil.rmtree`/`return` statements at one iteration: `test -d` exited 0. -/
def dirVisibleStep (o : PollObs) : Bool :=
  match o.testRes with
  | .raised => false
  | .ok code _ => code == 0

/-- `DockerMountTester.measure_write_latency`, lines 169-212. `writeEnd` is
the time recorded after the fsynced host write, `content` the generated
payload, `cleanupOk` whether the `os.remove` on the timeout path would
succeed, and the list argument the poll iterations that occur before the
timeout deadline. Returns the latency (`none` on timeout, i.e. the Python
`return None`) paired with whether the host file still exists afterwards.
A poll iteration at which the verified match occurs returns
`now - writeEnd` provided the `os.remove` inside the `try` succeeds; if
that removal raises, the exception is caught and the loop continues. On
timeout the host file is removed best-effort with errors swallowed. -/
def measure_write_latency (writeEnd : ℚ) (content : String) (cleanupOk : Bool) :
    List PollObs → Option ℚ × Bool
  | [] => (none, !cleanupOk)
  | o :: rest =>
    if fileMatchStep content o && o.removeOk then (some (o.now - writeEnd), false)
    else measure_write_latency writeEnd content cleanupOk rest

/-- `DockerMountTester.measure_directory_latency`, lines 214-249. Same
shape as `measure_write_latency` but the poll test is directory existence
(no content verification) and cleanup is `shutil.rmtree`. -/
def measure_directory_latency (createEnd : ℚ) (cleanupOk : Bool) :
    List PollObs → Option ℚ × Bool
  | [] => (none, !cleanupOk)
  | o :: rest =>
    if dirVisibleStep o && o.removeOk then (some (o.now - createEnd), false)
    else measure_directory_latency createEnd cleanupOk rest

/-- A value stored in one of the metadata dictionaries: a string or an
integer. -/
inductive MetaVal where
  | str (s : String)
  | int (n : Int)
deriving DecidableEq

/-- A string-keyed dictionary of metadata values, as an association list. -/
abbrev MetaDict := List (String × MetaVal)

/-- The metadata record returned by `DockerMountTester.get_system_info`:
the timestamp, the `platform`-derived system section (gathered by
infallible library calls, taken here as a parameter), and the docker
section. -/
structure SystemInfo where
  timestamp : String
  system : MetaDict
  docker : MetaDict
deriving DecidableEq

/-- `DockerMountTester.get_system_info`, lines 102-143. The two docker
lookups are fallible: `docker_info` is the result of
`self.docker_client.info()` (`none` when the call raised, in which case the
code substitutes the empty dict `{}`), `docker_version` likewise for
`self.docker_client.version()`. Each field is then read with `.get` and an
explicit default: `"unknown"` for the string-valued fields, `0` for
`total_memory` (`MemTotal`) and `cpus` (`NCPU`). -/
def get_system_info (docker_info docker_version : Option MetaDict)
    (timestamp : String) (system : MetaDict) : SystemInfo :=
  let info := docker_info.getD []
  let ver := docker_version.getD []
  { timestamp := timestamp
    system := system
    docker :=
      [("version", (ver.lookup "Version").getD (.str "unknown")),
       ("api_version", (ver.lookup "ApiVersion").getD (.str "unknown")),
       ("go_version", (ver.lookup "GoVersion").getD (.str "unknown")),
       ("git_commit", (ver.lookup "GitCommit").getD (.str "unknown")),
       ("built", (ver.lookup "Built").getD (.str "unknown")),
       ("os", (ver.lookup "Os").getD (.str "unknown")),
       ("arch", (ver.lookup "Arch").getD (.str "unknown")),
       ("kernel_version", (ver.lookup "KernelVersion").getD (.str "unknown")),
       ("driver", (info.lookup "Driver").getD (.str "unknown")),
       ("storage_driver", (info.lookup "StorageDriver").getD (.str "unknown")),
       ("logging_driver", (info.lookup "LoggingDriver").getD (.str "unknown")),
       ("cgroup_driver", (info.lookup "CgroupDriver").getD (.str "unknown")),
       ("docker_root_dir", (info.lookup "DockerRootDir").getD (.str "unknown")),
       ("total_memory", (info.lookup "MemTotal").getD (.int 0)),
       ("cpus", (info.lookup "NCPU").getD (.int 0))] }

/-- The number of test environments provisioned by
`DockerMountTester.create_test_environment`: the loop is `for i in
range(3)`, with no input or configuration parameter controlling it. -/
def numTestEnvironments : Nat := 3

/-- The kind of one trial, drawn by `random.choice(["file", "directory"])`. -/
inductive TestType where
  | file
  | directory
deriving DecidableEq

/-- The random draws and outside-world behaviour of one trial of the
scheduler loop: the kind drawn by `random.choice`, the environment index
drawn by `random.randint(0, len(temp_dirs) - 1)` (hence in
`Fin numTestEnvironments`), whether the host-side mutation phase (the
`open`/`write`/`fsync` or `os.makedirs`) raises, the reference time
recorded after the mutation, the generated payload, the poll iterations
that fit inside the timeout window, whether the timeout-path cleanup
removal succeeds, and the `datetime.now()` value used for the sample's
timestamp. -/
structure TrialPlan where
  kind : TestType
  env : Fin numTestEnvironments
  writeRaises : Bool
  writeEnd : ℚ
  content : String
  polls : List PollObs
  cleanupOk : Bool
  sampleTime : ℚ
deriving DecidableEq

/-- One collected sample, lines 283-289: the loop index `i` as
`sample_id`, the drawn kind and environment index, the measured latency
converted to milliseconds, and the timestamp at append time. -/
structure Sample where
  sample_id : Nat
  test_type : TestType
  environment : Nat
  latency_ms : ℚ
  timestamp : ℚ
deriving DecidableEq

/-- The `test_config` section of the compiled results, lines 300-304. -/
structure TestConfig where
  num_samples : Nat
  timeout : ℚ
  num_environments : Nat
deriving DecidableEq

/-- The `summary` section of the compiled results, lines 306-310. -/
structure Summary where
  total_samples : Nat
  timeouts : Nat
  success_rate : ℚ
deriving DecidableEq

/-- The compiled results dictionary of `run_stress_test`, lines 298-311. -/
structure Report where
  metadata : SystemInfo
  test_config : TestConfig
  samples : List Sample
  summary : Summary
deriving DecidableEq

/-- The sample dictionary built at lines 283-289 for trial `i`. -/
def mkSample (i : Nat) (p : TrialPlan) (lat : ℚ) : Sample :=
  { sample_id := i
    test_type := p.kind
    environment := p.env.val
    latency_ms := lat * 1000
    timestamp := p.sampleTime }

/-- Dispatch of one trial to its generator, lines 277-280: returns the
latency in seconds, or `none` on timeout. -/
def runTrial (p : TrialPlan) : Option ℚ :=
  match p.kind with
  | .file => (measure_write_latency p.writeEnd p.content p.cleanupOk p.polls).1
  | .directory => (measure_directory_latency p.writeEnd p.cleanupOk p.polls).1

/-- The trial loop of `run_stress_test`, lines 262-293, starting at loop
index `i` with one `TrialPlan` per remaining iteration. Returns the
collected sample list and the timeout counter, or `none` when some trial's
host-mutation phase raises (that exception is not caught anywhere in
`run_stress_test`, so the whole run aborts and no results dictionary is
built). -/
def runTrials : Nat → List TrialPlan → Option (List Sample × Nat)
  | _, [] => some ([], 0)
  | i, p :: rest =>
    if p.writeRaises then none
    else
      match runTrials (i + 1) rest with
      | none => none
      | some (s, touts) =>
        match runTrial p with
        | some lat => some (mkSample i p lat :: s, touts)
        | none => some (s, touts + 1)

/-- `DockerMountTester.run_stress_test`, lines 251-313. The run is
configured with `num_samples = plans.length` (one `TrialPlan` per
iteration of `for i in range(self.num_samples)`) and `timeout`; `md` is
the metadata captured by `get_system_info`. Returns the compiled results,
or `none` when the run aborts with an uncaught exception. -/
def run_stress_test (timeout : ℚ) (md : SystemInfo) (plans : List TrialPlan) :
    Option Report :=
  (runTrials 0 plans).map fun st =>
    { metadata := md
      test_config :=
        { num_samples := plans.length
          timeout := timeout
          num_environments := numTestEnvironments }
      samples := st.1
      summary :=
        { total_samples := st.1.length
          timeouts := st.2
          success_rate :=
            if plans.length > 0 then (st.1.length : ℚ) / (plans.length : ℚ) else 0 } }

/-- Division as performed by Python's `/`: raises `ZeroDivisionError`
(here `none`) on a zero denominator, otherwise the exact quotient. -/
def safeDiv (a b : ℚ) : Option ℚ :=
  if b = 0 then none else some (a / b)

/-- `statistics.mean`: the arithmetic mean, raising (here `none`) on an
empty sequence. -/
def meanQ (xs : List ℚ) : Option ℚ :=
  safeDiv xs.sum (xs.length : ℚ)

/-- The ascending sort used by `statistics.median`, `statistics.stdev` and
`np.percentile`. -/
def sortedQ (xs : List ℚ) : List ℚ :=
  xs.insertionSort (· ≤ ·)

/-- `statistics.median`: the middle element of the sorted sequence for odd
length, the average of the two middle elements for even length, raising
(here `none`) on an empty sequence. -/
def medianQ (xs : List ℚ) : Option ℚ :=
  let ys := sortedQ xs
  let n := ys.length
  if n = 0 then none
  else if n % 2 = 1 then some (ys.getD (n / 2) 0)
  else some ((ys.getD (n / 2 - 1) 0 + ys.getD (n / 2) 0) / 2)

/-- A statistic value as stored in one of the `analyze_results`
dictionaries: an exact rational, or the (irrational in general) square
root of a rational, which is how `statistics.stdev`'s result is recorded
here since its radicand is the only exactly representable part. -/
inductive StatVal where
  | num (q : ℚ)
  | sqrtOf (q : ℚ)
deriving DecidableEq

/-- `statistics.stdev`: the sample standard deviation, the square root of
the sum of squared deviations from the mean divided by `n - 1`; raises
(here `none`) for sequences of fewer than two elements. -/
def stdevQ (xs : List ℚ) : Option StatVal :=
  (meanQ xs).bind fun m =>
  (safeDiv ((xs.map fun x => (x - m) ^ 2).sum) ((xs.length : ℚ) - 1)).map fun v =>
  .sqrtOf v

/-- The `std_dev` entry of a stats dictionary:
`statistics.stdev(latencies) if len(latencies) > 1 else 0`. -/
def stdevEntry (xs : List ℚ) : Option StatVal :=
  if 1 < xs.length then stdevQ xs else some (.num 0)

/-- `np.percentile` with the default linear interpolation between order
statistics: position `p * (n - 1) / 100` into the sorted sequence,
interpolating between the neighbouring elements; `none` on an empty
sequence. -/
def percentileQ (xs : List ℚ) (p : ℚ) : Option ℚ :=
  let ys := sortedQ xs
  let n := ys.length
  if n = 0 then none
  else
    let pos : ℚ := p * ((n : ℚ) - 1) / 100
    let i : Nat := (⌊pos⌋).toNat
    let lo := ys.getD i 0
    let hi := ys.getD (min (i + 1) (n - 1)) 0
    some (lo + (pos - (i : ℚ)) * (hi - lo))

/-- One stats dictionary of `analyze_results`, as an ordered association
list from field name to value. -/
abbrev StatBlock := List (String × StatVal)

/-- The `overall` block of `analyze_results`, lines 347-356: count, mean,
median, std_dev, min, max, p95, p99. `none` when any of the underlying
library calls raises. -/
def statBlockFull (xs : List ℚ) : Option StatBlock :=
  (meanQ xs).bind fun m =>
  (medianQ xs).bind fun med =>
  (stdevEntry xs).bind fun sd =>
  (xs.min?).bind fun mn =>
  (xs.max?).bind fun mx =>
  (percentileQ xs 95).bind fun p95 =>
  (percentileQ xs 99).bind fun p99 =>
  some [("count", .num (xs.length : ℚ)), ("mean", .num m), ("median", .num med),
        ("std_dev", sd), ("min", .num mn), ("max", .num mx),
        ("p95", .num p95), ("p99", .num p99)]

/-- A per-kind block of `analyze_results`, lines 360-367 and 370-377:
count, mean, median, std_dev, min, max — and no percentile entries. -/
def statBlockBasic (xs : List ℚ) : Option StatBlock :=
  (meanQ xs).bind fun m =>
  (medianQ xs).bind fun med =>
  (stdevEntry xs).bind fun sd =>
  (xs.min?).bind fun mn =>
  (xs.max?).bind fun mx =>
  some [("count", .num (xs.length : ℚ)), ("mean", .num m), ("median", .num med),
        ("std_dev", sd), ("min", .num mn), ("max", .num mx)]

/-- The conditional per-kind entry of the stats dictionary: the block under
its key when the kind's latency list is non-empty (`if file_latencies:`),
nothing otherwise. -/
def kindBlock (key : String) (lats : List ℚ) : Option (List (String × StatBlock)) :=
  if lats.isEmpty then some []
  else (statBlockBasic lats).map fun b => [(key, b)]

/-- The latencies of the file samples of a report, line 343. -/
def fileLats (r : Report) : List ℚ :=
  (r.samples.filter fun s => s.test_type == TestType.file).map fun s => s.latency_ms

/-- The latencies of the directory samples of a report, line 344. -/
def dirLats (r : Report) : List ℚ :=
  (r.samples.filter fun s => s.test_type == TestType.directory).map fun s => s.latency_ms

/-- The result of `analyze_results`: the error dictionary
`{"error": "No samples to analyze"}` or the stats dictionary. -/
inductive AnalyzeOutput where
  | error (msg : String)
  | stats (blocks : List (String × StatBlock))
deriving DecidableEq

/-- `analyze_results`, lines 334-379: the error dictionary on an empty
sample sequence, otherwise the `overall` block followed by the per-kind
blocks for the kinds that are present; `none` when a library call inside
raises. -/
def analyze_results (r : Report) : Option AnalyzeOutput :=
  if r.samples.isEmpty then some (.error "No samples to analyze")
  else
    (statBlockFull (r.samples.map fun s => s.latency_ms)).bind fun overall =>
    (kindBlock "file_operations" (fileLats r)).bind fun fb =>
    (kindBlock "directory_operations" (dirLats r)).bind fun db =>
    some (.stats ([("overall", overall)] ++ fb ++ db))

/-- Every completed trial loop accounts each trial exactly once: the
number of collected samples plus the timeout counter equals the number of
trials. -/
theorem runTrials_counts :
    ∀ (plans : List TrialPlan) (i : Nat) (s : List Sample) (touts : Nat),
      runTrials i plans = some (s, touts) → s.length + touts = plans.length := by
  intro plans
  induction plans with
  | nil =>
    intro i s touts h
    simp only [runTrials, Option.some.injEq, Prod.mk.injEq] at h
    obtain ⟨h1, h2⟩ := h
    simp [← h1, ← h2]
  | cons p rest ih =>
    intro i s touts h
    simp only [runTrials] at h
    cases hw : p.writeRaises with
    | true => rw [hw] at h; simp at h
    | false =>
      rw [hw] at h
      simp only [Bool.false_eq_true, if_false] at h
      cases hr : runTrials (i + 1) rest with
      | none => rw [hr] at h; simp at h
      | some st =>
        rw [hr] at h
        cases htr : runTrial p with
        | some lat =>
          rw [htr] at h
          simp only [Option.some.injEq, Prod.mk.injEq] at h
          obtain ⟨h1, h2⟩ := h
          have := ih (i + 1) st.1 st.2 (by rw [hr])
          subst h1 h2
          simp only [List.length_cons]
          omega
        | none =>
          rw [htr] at h
          simp only [Option.some.injEq, Prod.mk.injEq] at h
          obtain ⟨h1, h2⟩ := h
          have := ih (i + 1) st.1 st.2 (by rw [hr])
          subst h1 h2
          simp only [List.length_cons]
          omega

/-- A concrete metadata record for witnesses: both docker lookups failed. -/
def mdEx : SystemInfo := get_system_info none none "t0" []

/-- C1: for every completed run the summary's `success_rate` equals
`total_samples / num_samples` when `num_samples > 0` and `0` otherwise;
and a run configured with `num_samples = 0` completes without error,
producing a report with an empty sample sequence, `timeouts = 0` and
`success_rate = 0`. -/
theorem success_rate_formula (t : ℚ) (md : SystemInfo) (plans : List TrialPlan) :
    (∀ r : Report, run_stress_test t md plans = some r →
        r.summary.success_rate =
          if 0 < r.test_config.num_samples then
            (r.summary.total_samples : ℚ) / (r.test_config.num_samples : ℚ)
          else 0)
    ∧ (∃ r : Report, run_stress_test t md [] = some r ∧ r.samples = [] ∧
        r.summary.timeouts = 0 ∧ r.summary.success_rate = 0) := by
  constructor
  · intro r hr
    simp only [run_stress_test] at hr
    cases h : runTrials 0 plans with
    | none => rw [h] at hr; simp at hr
    | some st =>
      rw [h] at hr
      simp only [Option.map_some', Option.some.injEq] at hr
      subst hr
      rfl
  · exact ⟨_, rfl, rfl, rfl, rfl⟩

/-- Witness for C1 at the concrete empty run. -/
theorem success_rate_formula_witness :
    ∃ r : Report, run_stress_test 30 mdEx [] = some r ∧
      r.summary.success_rate =
        if 0 < r.test_config.num_samples then
          (r.summary.total_samples : ℚ) / (r.test_config.num_samples : ℚ)
        else 0 := by
  obtain ⟨r, hr, _, _, _⟩ := (success_rate_formula 30 mdEx []).2
  exact ⟨r, hr, (success_rate_formula 30 mdEx []).1 r hr⟩

/-- C2: for every run that runs to completion, the number of collected
samples plus the timeout counter equals the configured `num_samples`. -/
theorem sample_timeout_accounting (t : ℚ) (md : SystemInfo) (plans : List TrialPlan)
    (r : Report) (h : run_stress_test t md plans = some r) :
    r.samples.length + r.summary.timeouts = r.test_config.num_samples := by
  simp only [run_stress_test] at h
  cases hr : runTrials 0 plans with
  | none => rw [hr] at h; simp at h
  | some st =>
    rw [hr] at h
    simp only [Option.map_some', Option.some.injEq] at h
    subst h
    exact runTrials_counts plans 0 st.1 st.2 (by rw [hr])

/-- Witness for C2 at the concrete empty run. -/
theorem sample_timeout_accounting_witness :
    ∃ r : Report, run_stress_test 30 mdEx [] = some r ∧
      r.samples.length + r.summary.timeouts = r.test_config.num_samples := by
  obtain ⟨r, hr⟩ : ∃ r, run_stress_test 30 mdEx [] = some r := ⟨_, rfl⟩
  exact ⟨r, hr, sample_timeout_accounting 30 mdEx [] r hr⟩

/-- A payload of the shape the file generator produces: 100 alphanumeric
characters. -/
def payload100 : String := String.mk (List.replicate 100 'a')

/-- A poll iteration that reports the file present with content equal to
the payload plus a trailing newline — not a byte-for-byte match. -/
def staleNewlineObs : PollObs := ⟨5, .ok 0 "", .ok 0 (payload100 ++ "\n"), true⟩

/-- C3 counterexample: a poll iteration whose read content is the 100-byte
payload followed by a newline is not a byte-for-byte match of the payload,
yet the file generator declares visibility and returns a latency, because
the code compares `cat_result.output.decode().strip() == content`. -/
theorem visibility_without_byte_match :
    ((measure_write_latency 0 payload100 true [staleNewlineObs]).1).isSome = true
    ∧ payload100 ++ "\n" ≠ payload100 := by
  exact ⟨rfl, by decide⟩

/-- C3 (amended): the file generator never declares visibility (and never
returns a latency) unless some poll iteration's read content equals the
generated payload after stripping surrounding whitespace (Python
`.strip()`); an iteration that does not match under that comparison never
terminates the trial early — the loop continues exactly as if the
iteration had not happened, until either a match or timeout. -/
theorem visibility_requires_strip_match :
    (∀ (writeEnd : ℚ) (content : String) (cOk : Bool) (polls : List PollObs)
        (lat : ℚ) (b : Bool),
        measure_write_latency writeEnd content cOk polls = (some lat, b) →
        ∃ o ∈ polls, fileMatchStep content o = true)
    ∧ (∀ (writeEnd : ℚ) (content : String) (cOk : Bool) (o : PollObs)
        (rest : List PollObs), fileMatchStep content o = false →
        measure_write_latency writeEnd content cOk (o :: rest) =
          measure_write_latency writeEnd content cOk rest) := by
  constructor
  · intro writeEnd content cOk polls
    induction polls with
    | nil => intro lat b h; simp [measure_write_latency] at h
    | cons o rest ih =>
      intro lat b h
      simp only [measure_write_latency] at h
      by_cases hm : (fileMatchStep content o && o.removeOk) = true
      · exact ⟨o, by simp, ((Bool.and_eq_true _ _).mp hm).1⟩
      · rw [if_neg hm] at h
        obtain ⟨o2, ho2, hm2⟩ := ih lat b h
        exact ⟨o2, by simp [ho2], hm2⟩
  · intro writeEnd content cOk o rest hm
    simp [measure_write_latency, hm]

/-- A poll iteration at which the file trial's verified match occurs. -/
def matchObs : PollObs := ⟨7, .ok 0 "", .ok 0 "x", true⟩

/-- A poll iteration whose presence test exits non-zero. -/
def noFileObs : PollObs := ⟨7, .ok 1 "", .ok 0 "x", true⟩

/-- Witness for C3 (amended) at concrete poll traces. -/
theorem visibility_requires_strip_match_witness :
    (∃ o ∈ [matchObs], fileMatchStep "x" o = true)
    ∧ measure_write_latency 0 "x" true [noFileObs] =
        measure_write_latency 0 "x" true [] := by
  constructor
  · exact visibility_requires_strip_match.1 0 "x" true [matchObs] (7 - 0) false rfl
  · exact visibility_requires_strip_match.2 0 "x" true noFileObs [] rfl

/-- A trial whose host-side mutation phase (the `open`/`write`/`fsync`)
raises. -/
def raisingPlan : TrialPlan := ⟨.file, ⟨0, by decide⟩, true, 0, "x", [], true, 0⟩

/-- C4 counterexample: a run containing a single trial whose host-mutation
phase raises produces no report at all — the exception propagates out of
`run_stress_test`, so an error inside an individual trial can abort the
run instead of being absorbed into the counters. -/
theorem trial_write_error_aborts_run :
    run_stress_test 30 mdEx [raisingPlan] = none := rfl

/-- C4 (amended): every error arising inside a trial's poll loop (for
either sample kind) is swallowed and treated as not-yet-visible — the loop
continues exactly as if the iteration had not happened — and a run whose
trials' host-mutation phases all succeed always runs to completion,
absorbing timeouts into the counters; but an exception raised in a trial's
host-mutation phase propagates and aborts the run. -/
theorem poll_errors_swallowed :
    (∀ (writeEnd : ℚ) (content : String) (cOk : Bool) (o : PollObs)
        (rest : List PollObs), o.testRes = .raised →
        measure_write_latency writeEnd content cOk (o :: rest) =
          measure_write_latency writeEnd content cOk rest)
    ∧ (∀ (createEnd : ℚ) (cOk : Bool) (o : PollObs) (rest : List PollObs),
        o.testRes = .raised →
        measure_directory_latency createEnd cOk (o :: rest) =
          measure_directory_latency createEnd cOk rest)
    ∧ (∀ (t : ℚ) (md : SystemInfo) (plans : List TrialPlan),
        (∀ p ∈ plans, p.writeRaises = false) →
        (run_stress_test t md plans).isSome = true) := by
  refine ⟨?_, ?_, ?_⟩
  · intro writeEnd content cOk o rest ho
    simp [measure_write_latency, fileMatchStep, ho]
  · intro createEnd cOk o rest ho
    simp [measure_directory_latency, dirVisibleStep, ho]
  · have key : ∀ (plans : List TrialPlan), (∀ p ∈ plans, p.writeRaises = false) →
        ∀ i, (runTrials i plans).isSome = true := by
      intro plans
      induction plans with
      | nil => intro _ i; rfl
      | cons p rest ih =>
        intro hall i
        have hw : p.writeRaises = false := hall p (by simp)
        have hrest := ih (fun q hq => hall q (by simp [hq])) (i + 1)
        obtain ⟨⟨s, touts⟩, hst⟩ := Option.isSome_iff_exists.mp hrest
        simp only [runTrials, hw, Bool.false_eq_true, if_false, hst]
        cases runTrial p <;> simp
    intro t md plans hall
    obtain ⟨⟨s, touts⟩, hst⟩ := Option.isSome_iff_exists.mp (key plans hall 0)
    simp [run_stress_test, hst]

/-- A poll iteration at which the runtime call raises. -/
def raisedObs : PollObs := ⟨3, .raised, .raised, true⟩

/-- A trial whose host-mutation phase succeeds and which then times out. -/
def okPlan : TrialPlan := ⟨.file, ⟨0, by decide⟩, false, 0, "x", [], true, 0⟩

/-- Witness for C4 (amended) at concrete poll traces and a concrete run. -/
theorem poll_errors_swallowed_witness :
    measure_write_latency 0 "x" true [raisedObs] = measure_write_latency 0 "x" true []
    ∧ measure_directory_latency 0 true [raisedObs] = measure_directory_latency 0 true []
    ∧ (run_stress_test 30 mdEx [okPlan]).isSome = true := by
  refine ⟨poll_errors_swallowed.1 0 "x" true raisedObs [] rfl,
          poll_errors_swallowed.2.1 0 true raisedObs [] rfl,
          poll_errors_swallowed.2.2 30 mdEx [okPlan] ?_⟩
  intro p hp
  rw [List.mem_singleton] at hp
  subst hp
  rfl

/-- A file poll trace with no verified match ends in a timeout, with the
host file removed exactly when the best-effort cleanup succeeds. -/
theorem measure_write_timeout_eq (writeEnd : ℚ) (content : String) (cOk : Bool)
    (polls : List PollObs) (h : ∀ o ∈ polls, fileMatchStep content o = false) :
    measure_write_latency writeEnd content cOk polls = (none, !cOk) := by
  induction polls with
  | nil => rfl
  | cons o rest ih =>
    have ho := h o (by simp)
    simp only [measure_write_latency, ho, Bool.false_and, Bool.false_eq_true, if_false]
    exact ih fun q hq => h q (by simp [hq])

/-- Splitting the trial loop at a final appended trial. -/
theorem runTrials_snoc (p : TrialPlan) :
    ∀ (l : List TrialPlan) (i : Nat),
      runTrials i (l ++ [p]) =
        (runTrials i l).bind fun st =>
          if p.writeRaises then none
          else
            match runTrial p with
            | some lat => some (st.1 ++ [mkSample (i + l.length) p lat], st.2)
            | none => some (st.1, st.2 + 1) := by
  intro l
  induction l with
  | nil =>
    intro i
    cases hw : p.writeRaises <;> cases htr : runTrial p <;>
      simp [runTrials, hw, htr]
  | cons q rest ih =>
    intro i
    have hidx : i + 1 + rest.length = i + (q :: rest).length := by
      simp only [List.length_cons]
      omega
    cases hw : q.writeRaises with
    | true => simp [runTrials, hw, List.cons_append]
    | false =>
      simp only [List.cons_append, runTrials, hw, Bool.false_eq_true, if_false,
        List.append_eq]
      rw [ih (i + 1), hidx]
      cases hr : runTrials (i + 1) rest with
      | none => simp
      | some st =>
        cases hp : p.writeRaises with
        | true => cases htq : runTrial q <;> simp [hp, htq]
        | false =>
          cases htp : runTrial p <;> cases htq : runTrial q <;>
            simp [hp, htp, htq]

/-- C5: a file trial in which no verified content match occurs within the
timeout window reports a timeout: it returns no latency, the host file is
deleted best-effort with deletion errors swallowed (the trial still
reports the timeout whether or not the deletion succeeds), and at the run
level such a trial appends no sample and increments the timeout counter by
exactly 1. -/
theorem file_timeout_behaviour :
    (∀ (writeEnd : ℚ) (content : String) (cOk : Bool) (polls : List PollObs),
        (∀ o ∈ polls, fileMatchStep content o = false) →
        measure_write_latency writeEnd content cOk polls = (none, !cOk))
    ∧ (∀ (t : ℚ) (md : SystemInfo) (plans : List TrialPlan) (p : TrialPlan)
        (r : Report), run_stress_test t md plans = some r →
        p.kind = TestType.file → p.writeRaises = false →
        (∀ o ∈ p.polls, fileMatchStep p.content o = false) →
        ∃ r2 : Report, run_stress_test t md (plans ++ [p]) = some r2 ∧
          r2.samples = r.samples ∧
          r2.summary.timeouts = r.summary.timeouts + 1) := by
  constructor
  · exact measure_write_timeout_eq
  · intro t md plans p r hr hk hw hnm
    have hmeasure : runTrial p = none := by
      simp only [runTrial, hk]
      rw [measure_write_timeout_eq p.writeEnd p.content p.cleanupOk p.polls hnm]
    simp only [run_stress_test] at hr ⊢
    cases hrt : runTrials 0 plans with
    | none => rw [hrt] at hr; simp at hr
    | some st =>
      rw [hrt] at hr
      simp only [Option.map_some', Option.some.injEq] at hr
      subst hr
      rw [runTrials_snoc p plans 0, hrt]
      simp only [Option.some_bind, hw, Bool.false_eq_true, if_false, hmeasure]
      exact ⟨_, rfl, rfl, rfl⟩

/-- The report of the empty run used by the witnesses. -/
def emptyRunReport : Report :=
  { metadata := mdEx
    test_config := { num_samples := 0, timeout := 30, num_environments := numTestEnvironments }
    samples := []
    summary := { total_samples := 0, timeouts := 0, success_rate := 0 } }

/-- Witness for C5 at a concrete empty poll trace and a concrete run. -/
theorem file_timeout_behaviour_witness :
    measure_write_latency 0 "x" true [] = (none, false)
    ∧ ∃ r2 : Report, run_stress_test 30 mdEx ([] ++ [okPlan]) = some r2 ∧
        r2.samples = emptyRunReport.samples ∧ r2.summary.timeouts = 1 := by
  constructor
  · exact file_timeout_behaviour.1 0 "x" true [] (by intro o ho; simp at ho)
  · obtain ⟨r2, h2, hs, ht⟩ :=
      file_timeout_behaviour.2 30 mdEx [] okPlan emptyRunReport rfl rfl rfl
        (by intro o ho; simp [okPlan] at ho)
    exact ⟨r2, h2, hs, by rw [ht]; rfl⟩

/-- C7 counterexample: when the docker info lookup fails, the metadata's
`total_memory` field is recorded as the integer `0`, which is not the
string sentinel `"unknown"`. -/
theorem numeric_metadata_defaults_to_zero :
    (get_system_info none none "" []).docker.lookup "total_memory" = some (.int 0)
    ∧ MetaVal.int 0 ≠ MetaVal.str "unknown" := by
  exact ⟨rfl, by decide⟩

/-- C7 (amended): every docker metadata field is always present (never
omitted), and on lookup failure the string-valued fields are recorded as
the `"unknown"` sentinel, while the resource totals `total_memory` and
`cpus` are recorded as the numeric sentinel `0`. -/
theorem metadata_failure_sentinels (di dv : Option MetaDict) (ts : String)
    (sys : MetaDict) :
    ((get_system_info di dv ts sys).docker.map Prod.fst =
      ["version", "api_version", "go_version", "git_commit", "built", "os", "arch",
       "kernel_version", "driver", "storage_driver", "logging_driver",
       "cgroup_driver", "docker_root_dir", "total_memory", "cpus"])
    ∧ (dv = none →
        (get_system_info di dv ts sys).docker.lookup "version" = some (.str "unknown")
        ∧ (get_system_info di dv ts sys).docker.lookup "api_version" = some (.str "unknown")
        ∧ (get_system_info di dv ts sys).docker.lookup "go_version" = some (.str "unknown")
        ∧ (get_system_info di dv ts sys).docker.lookup "git_commit" = some (.str "unknown")
        ∧ (get_system_info di dv ts sys).docker.lookup "built" = some (.str "unknown")
        ∧ (get_system_info di dv ts sys).docker.lookup "os" = some (.str "unknown")
        ∧ (get_system_info di dv ts sys).docker.lookup "arch" = some (.str "unknown")
        ∧ (get_system_info di dv ts sys).docker.lookup "kernel_version" = some (.str "unknown"))
    ∧ (di = none →
        (get_system_info di dv ts sys).docker.lookup "driver" = some (.str "unknown")
        ∧ (get_system_info di dv ts sys).docker.lookup "storage_driver" = some (.str "unknown")
        ∧ (get_system_info di dv ts sys).docker.lookup "logging_driver" = some (.str "unknown")
        ∧ (get_system_info di dv ts sys).docker.lookup "cgroup_driver" = some (.str "unknown")
        ∧ (get_system_info di dv ts sys).docker.lookup "docker_root_dir" = some (.str "unknown")
        ∧ (get_system_info di dv ts sys).docker.lookup "total_memory" = some (.int 0)
        ∧ (get_system_info di dv ts sys).docker.lookup "cpus" = some (.int 0)) := by
  refine ⟨rfl, ?_, ?_⟩
  · intro h
    subst h
    exact ⟨rfl, rfl, rfl, rfl, rfl, rfl, rfl, rfl⟩
  · intro h
    subst h
    exact ⟨rfl, rfl, rfl, rfl, rfl, rfl, rfl⟩

/-- Witness for C7 (amended) with both lookups failed. -/
theorem metadata_failure_sentinels_witness :
    (get_system_info none none "t0" []).docker.lookup "version" = some (.str "unknown")
    ∧ (get_system_info none none "t0" []).docker.lookup "cpus" = some (.int 0) :=
  ⟨((metadata_failure_sentinels none none "t0" []).2.1 rfl).1,
   ((metadata_failure_sentinels none none "t0" []).2.2 rfl).2.2.2.2.2.2⟩

/-- Every sample collected by the trial loop targets one of the
`numTestEnvironments` provisioned environments. -/
theorem runTrials_env_bound :
    ∀ (plans : List TrialPlan) (i : Nat) (s : List Sample) (touts : Nat),
      runTrials i plans = some (s, touts) →
      ∀ x ∈ s, x.environment < numTestEnvironments := by
  intro plans
  induction plans with
  | nil =>
    intro i s touts h x hx
    simp only [runTrials, Option.some.injEq, Prod.mk.injEq] at h
    rw [← h.1] at hx
    simp at hx
  | cons p rest ih =>
    intro i s touts h x hx
    simp only [runTrials] at h
    cases hw : p.writeRaises with
    | true => rw [hw] at h; simp at h
    | false =>
      rw [hw] at h
      simp only [Bool.false_eq_true, if_false] at h
      cases hr : runTrials (i + 1) rest with
      | none => rw [hr] at h; simp at h
      | some st =>
        rw [hr] at h
        cases htr : runTrial p with
        | some lat =>
          rw [htr] at h
          simp only [Option.some.injEq, Prod.mk.injEq] at h
          rw [← h.1] at hx
          rcases List.mem_cons.mp hx with hx | hx
          · rw [hx]; exact p.env.isLt
          · exact ih (i + 1) st.1 st.2 (by rw [hr]) x hx
        | none =>
          rw [htr] at h
          simp only [Option.some.injEq, Prod.mk.injEq] at h
          rw [← h.1] at hx
          exact ih (i + 1) st.1 st.2 (by rw [hr]) x hx

/-- C10: every run provisions exactly 3 execution environments — no input
controls the count — so the report's `test_config.num_environments` is
always 3 and every sample's environment index is below 3. -/
theorem three_environments (t : ℚ) (md : SystemInfo) (plans : List TrialPlan)
    (r : Report) (h : run_stress_test t md plans = some r) :
    r.test_config.num_environments = 3 ∧ ∀ s ∈ r.samples, s.environment < 3 := by
  simp only [run_stress_test] at h
  cases hrt : runTrials 0 plans with
  | none => rw [hrt] at h; simp at h
  | some st =>
    rw [hrt] at h
    simp only [Option.map_some', Option.some.injEq] at h
    subst h
    exact ⟨rfl, runTrials_env_bound plans 0 st.1 st.2 (by rw [hrt])⟩

/-- Witness for C10 at the concrete empty run. -/
theorem three_environments_witness :
    ∃ r : Report, run_stress_test 30 mdEx [] = some r ∧
      r.test_config.num_environments = 3 ∧ ∀ s ∈ r.samples, s.environment < 3 := by
  obtain ⟨r, hr⟩ : ∃ r, run_stress_test 30 mdEx [] = some r := ⟨_, rfl⟩
  exact ⟨r, hr, three_environments 30 mdEx [] r hr⟩

/-- A trial that succeeds at its first poll iteration. -/
def succPlan : TrialPlan := ⟨.file, ⟨2, by decide⟩, false, 0, "x", [matchObs], true, 9⟩

/-- C8 counterexample: in a run of three trials where the first two time
out and the third succeeds, the single collected sample carries sequence
id 2 (its trial's loop index), not 0 (its position among appended samples)
nor 1 — sample ids skip timed-out trials. -/
theorem sample_ids_skip_timeouts :
    (run_stress_test 30 mdEx [okPlan, okPlan, succPlan]).map
        (fun r => r.samples.map fun s => s.sample_id) = some [2]
    ∧ (2 : Nat) ≠ 0 ∧ (2 : Nat) ≠ 1 := by
  exact ⟨rfl, by decide, by decide⟩

/-- The loop indices of the trials that produce a sample, starting from
loop index `i`. -/
def successIndices : Nat → List TrialPlan → List Nat
  | _, [] => []
  | i, p :: rest =>
    if (runTrial p).isSome then i :: successIndices (i + 1) rest
    else successIndices (i + 1) rest

/-- Indices collected from loop index `i` onwards are at least `i`. -/
theorem successIndices_le :
    ∀ (plans : List TrialPlan) (i j : Nat), j ∈ successIndices i plans → i ≤ j := by
  intro plans
  induction plans with
  | nil => intro i j h; simp [successIndices] at h
  | cons p rest ih =>
    intro i j h
    simp only [successIndices] at h
    by_cases hs : (runTrial p).isSome = true
    · rw [if_pos hs] at h
      rcases List.mem_cons.mp h with h | h
      · omega
      · have := ih (i + 1) j h; omega
    · rw [if_neg hs] at h
      have := ih (i + 1) j h; omega

/-- The collected indices are strictly increasing. -/
theorem successIndices_sorted :
    ∀ (plans : List TrialPlan) (i : Nat),
      (successIndices i plans).Sorted (· < ·) := by
  intro plans
  induction plans with
  | nil => intro i; simp [successIndices]
  | cons p rest ih =>
    intro i
    simp only [successIndices]
    by_cases hs : (runTrial p).isSome = true
    · rw [if_pos hs]
      refine List.sorted_cons.mpr ⟨?_, ih (i + 1)⟩
      intro b hb
      have := successIndices_le rest (i + 1) b hb
      omega
    · rw [if_neg hs]; exact ih (i + 1)

/-- The sample ids produced by the trial loop are exactly the loop indices
of the succeeding trials, in order. -/
theorem runTrials_ids :
    ∀ (plans : List TrialPlan) (i : Nat) (s : List Sample) (touts : Nat),
      runTrials i plans = some (s, touts) →
      s.map (fun x => x.sample_id) = successIndices i plans := by
  intro plans
  induction plans with
  | nil =>
    intro i s touts h
    simp only [runTrials, Option.some.injEq, Prod.mk.injEq] at h
    rw [← h.1]
    rfl
  | cons p rest ih =>
    intro i s touts h
    simp only [runTrials] at h
    cases hw : p.writeRaises with
    | true => rw [hw] at h; simp at h
    | false =>
      rw [hw] at h
      simp only [Bool.false_eq_true, if_false] at h
      cases hr : runTrials (i + 1) rest with
      | none => rw [hr] at h; simp at h
      | some st =>
        rw [hr] at h
        cases htr : runTrial p with
        | some lat =>
          rw [htr] at h
          simp only [Option.some.injEq, Prod.mk.injEq] at h
          rw [← h.1]
          simp only [List.map_cons, successIndices, htr, Option.isSome_some, if_pos]
          exact congrArg (fun l => i :: l) (ih (i + 1) st.1 st.2 (by rw [hr]))
        | none =>
          rw [htr] at h
          simp only [Option.some.injEq, Prod.mk.injEq] at h
          rw [← h.1]
          simp only [successIndices, htr, Option.isSome_none, Bool.false_eq_true,
            if_false]
          exact ih (i + 1) st.1 st.2 (by rw [hr])

/-- C8 (amended): sample ids are unique within a run and strictly
increasing in trial-initiation order, and each sample's id is the loop
index of the trial that produced it — so after timed-out trials the ids
skip instead of staying consecutive with the sample sequence position. -/
theorem sample_ids_are_trial_indices (t : ℚ) (md : SystemInfo)
    (plans : List TrialPlan) (r : Report)
    (h : run_stress_test t md plans = some r) :
    r.samples.map (fun s => s.sample_id) = successIndices 0 plans
    ∧ (r.samples.map fun s => s.sample_id).Sorted (· < ·)
    ∧ (r.samples.map fun s => s.sample_id).Nodup := by
  simp only [run_stress_test] at h
  cases hrt : runTrials 0 plans with
  | none => rw [hrt] at h; simp at h
  | some st =>
    rw [hrt] at h
    simp only [Option.map_some', Option.some.injEq] at h
    subst h
    have hids := runTrials_ids plans 0 st.1 st.2 (by rw [hrt])
    have hsort : (st.1.map fun x => x.sample_id).Sorted (· < ·) := by
      rw [hids]; exact successIndices_sorted plans 0
    exact ⟨hids, hsort, hsort.nodup⟩

/-- Witness for C8 (amended) at a concrete one-trial run. -/
theorem sample_ids_are_trial_indices_witness :
    ∃ r : Report, run_stress_test 30 mdEx [succPlan] = some r ∧
      r.samples.map (fun s => s.sample_id) = successIndices 0 [succPlan] := by
  obtain ⟨r, hr⟩ : ∃ r, run_stress_test 30 mdEx [succPlan] = some r := ⟨_, rfl⟩
  exact ⟨r, hr, (sample_ids_are_trial_indices 30 mdEx [succPlan] r hr).1⟩

/-- The length of a non-empty latency list casts to a non-zero rational. -/
theorem list_length_cast_ne (xs : List ℚ) (h : xs ≠ []) : ((xs.length : ℚ)) ≠ 0 := by
  have hl : xs.length ≠ 0 := by simpa [List.length_eq_zero] using h
  exact_mod_cast hl

/-- The mean of a non-empty sequence divides by its non-zero length. -/
theorem meanQ_isSome (xs : List ℚ) (h : xs ≠ []) : (meanQ xs).isSome = true := by
  simp [meanQ, safeDiv, list_length_cast_ne xs h]

/-- Sorting preserves length. -/
theorem sortedQ_length (xs : List ℚ) : (sortedQ xs).length = xs.length :=
  List.length_insertionSort _ _

/-- The median of a non-empty sequence is defined. -/
theorem medianQ_isSome (xs : List ℚ) (h : xs ≠ []) : (medianQ xs).isSome = true := by
  have hn : (sortedQ xs).length ≠ 0 := by
    rw [sortedQ_length]
    simpa [List.length_eq_zero] using h
  simp only [medianQ]
  rw [if_neg hn]
  by_cases h2 : (sortedQ xs).length % 2 = 1
  · rw [if_pos h2]; rfl
  · rw [if_neg h2]; rfl

/-- The `std_dev` entry is defined for every non-empty sequence: computed
by `statistics.stdev` for two or more elements, the constant `0` for one. -/
theorem stdevEntry_isSome (xs : List ℚ) (h : xs ≠ []) :
    (stdevEntry xs).isSome = true := by
  by_cases h2 : 1 < xs.length
  · obtain ⟨m, hm⟩ := Option.isSome_iff_exists.mp (meanQ_isSome xs h)
    have hq : ((xs.length : ℚ) - 1) ≠ 0 := by
      have h1 : (1 : ℚ) < (xs.length : ℚ) := by exact_mod_cast h2
      intro hc
      rw [sub_eq_zero] at hc
      rw [hc] at h1
      exact lt_irrefl _ h1
    simp [stdevEntry, h2, stdevQ, hm, safeDiv, hq]
  · simp [stdevEntry, h2]

/-- The percentile of a non-empty sequence is defined. -/
theorem percentileQ_isSome (xs : List ℚ) (p : ℚ) (h : xs ≠ []) :
    (percentileQ xs p).isSome = true := by
  have hn : (sortedQ xs).length ≠ 0 := by
    rw [sortedQ_length]
    simpa [List.length_eq_zero] using h
  simp only [percentileQ]
  rw [if_neg hn]
  rfl

/-- The minimum of a non-empty sequence is defined. -/
theorem min?_isSome (xs : List ℚ) (h : xs ≠ []) : (xs.min?).isSome = true := by
  rw [Option.isSome_iff_ne_none]
  intro hc
  exact h (List.min?_eq_none_iff.mp hc)

/-- The maximum of a non-empty sequence is defined. -/
theorem max?_isSome (xs : List ℚ) (h : xs ≠ []) : (xs.max?).isSome = true := by
  rw [Option.isSome_iff_ne_none]
  intro hc
  exact h (List.max?_eq_none_iff.mp hc)

/-- On a non-empty sequence the full stats block is computed and carries
exactly the eight fields of lines 347-356. -/
theorem statBlockFull_spec (xs : List ℚ) (h : xs ≠ []) :
    ∃ b, statBlockFull xs = some b ∧
      b.map Prod.fst =
        ["count", "mean", "median", "std_dev", "min", "max", "p95", "p99"] := by
  obtain ⟨m, hm⟩ := Option.isSome_iff_exists.mp (meanQ_isSome xs h)
  obtain ⟨med, hmed⟩ := Option.isSome_iff_exists.mp (medianQ_isSome xs h)
  obtain ⟨sd, hsd⟩ := Option.isSome_iff_exists.mp (stdevEntry_isSome xs h)
  obtain ⟨mn, hmn⟩ := Option.isSome_iff_exists.mp (min?_isSome xs h)
  obtain ⟨mx, hmx⟩ := Option.isSome_iff_exists.mp (max?_isSome xs h)
  obtain ⟨p95, h95⟩ := Option.isSome_iff_exists.mp (percentileQ_isSome xs 95 h)
  obtain ⟨p99, h99⟩ := Option.isSome_iff_exists.mp (percentileQ_isSome xs 99 h)
  refine ⟨[("count", .num (xs.length : ℚ)), ("mean", .num m), ("median", .num med),
      ("std_dev", sd), ("min", .num mn), ("max", .num mx), ("p95", .num p95),
      ("p99", .num p99)], ?_, rfl⟩
  simp [statBlockFull, hm, hmed, hsd, hmn, hmx, h95, h99]

/-- On a non-empty sequence the per-kind stats block is computed and
carries exactly the six fields of lines 360-367 — no percentile entries. -/
theorem statBlockBasic_spec (xs : List ℚ) (h : xs ≠ []) :
    ∃ b, statBlockBasic xs = some b ∧
      b.map Prod.fst = ["count", "mean", "median", "std_dev", "min", "max"] := by
  obtain ⟨m, hm⟩ := Option.isSome_iff_exists.mp (meanQ_isSome xs h)
  obtain ⟨med, hmed⟩ := Option.isSome_iff_exists.mp (medianQ_isSome xs h)
  obtain ⟨sd, hsd⟩ := Option.isSome_iff_exists.mp (stdevEntry_isSome xs h)
  obtain ⟨mn, hmn⟩ := Option.isSome_iff_exists.mp (min?_isSome xs h)
  obtain ⟨mx, hmx⟩ := Option.isSome_iff_exists.mp (max?_isSome xs h)
  refine ⟨[("count", .num (xs.length : ℚ)), ("mean", .num m), ("median", .num med),
      ("std_dev", sd), ("min", .num mn), ("max", .num mx)], ?_, rfl⟩
  simp [statBlockBasic, hm, hmed, hsd, hmn, hmx]

/-- An absent kind contributes no block. -/
theorem kindBlock_eq_nil (key : String) (lats : List ℚ) (h : lats = []) :
    kindBlock key lats = some [] := by
  simp [kindBlock, h]

/-- A present kind contributes exactly one six-field block under its key. -/
theorem kindBlock_eq_some (key : String) (lats : List ℚ) (h : lats ≠ []) :
    ∃ b, kindBlock key lats = some [(key, b)] ∧
      b.map Prod.fst = ["count", "mean", "median", "std_dev", "min", "max"] := by
  obtain ⟨b, hb, hk⟩ := statBlockBasic_spec lats h
  have hne : ¬ lats.isEmpty = true := by simpa [List.isEmpty_iff] using h
  exact ⟨b, by simp [kindBlock, hne, hb], hk⟩

/-- A kind block is always computed without error. -/
theorem kindBlock_isSome (key : String) (lats : List ℚ) :
    (kindBlock key lats).isSome = true := by
  rcases eq_or_ne lats [] with h | h
  · rw [kindBlock_eq_nil key lats h]; rfl
  · obtain ⟨b, hb, _⟩ := kindBlock_eq_some key lats h
    rw [hb]; rfl

/-- C9: `analyze_results` never divides by zero for any input sample
sequence (every division inside is performed with a non-zero denominator,
so the analysis never raises), and on an empty sample sequence it returns
the explicit no-data result instead of computing statistics. -/
theorem analyze_no_division_by_zero (r : Report) :
    (analyze_results r).isSome = true
    ∧ (r.samples = [] → analyze_results r = some (.error "No samples to analyze")) := by
  constructor
  · by_cases hs : r.samples = []
    · simp [analyze_results, hs]
    · have he : ¬ r.samples.isEmpty = true := by simpa [List.isEmpty_iff] using hs
      have hlat : r.samples.map (fun s => s.latency_ms) ≠ [] := by
        simpa [List.map_eq_nil_iff] using hs
      obtain ⟨ov, hov, _⟩ := statBlockFull_spec _ hlat
      obtain ⟨fb, hfb⟩ := Option.isSome_iff_exists.mp
        (kindBlock_isSome "file_operations" (fileLats r))
      obtain ⟨db, hdb⟩ := Option.isSome_iff_exists.mp
        (kindBlock_isSome "directory_operations" (dirLats r))
      simp [analyze_results, he, hov, hfb, hdb]
  · intro hs
    simp [analyze_results, hs]

/-- Witness for C9 at the concrete empty report. -/
theorem analyze_no_division_by_zero_witness :
    analyze_results emptyRunReport = some (.error "No samples to analyze") :=
  (analyze_no_division_by_zero emptyRunReport).2 rfl

/-- C6 (amended): for every non-empty sample sequence, `analyze_results`
computes the full eight-field StatBlock (count, mean, median, std_dev,
min, max, p95, p99) once for the full set, and for each sample kind
present among the samples a six-field StatBlock (count, mean, median,
std_dev, min, max — without p95/p99); a kind absent from the samples
yields no StatBlock at all for that kind. -/
theorem statblock_fields_by_kind (r : Report) (h : r.samples ≠ []) :
    ∃ ov rest, analyze_results r = some (.stats (("overall", ov) :: rest))
      ∧ ov.map Prod.fst =
          ["count", "mean", "median", "std_dev", "min", "max", "p95", "p99"]
      ∧ (fileLats r = [] ↔ ∀ s ∈ r.samples, ¬ s.test_type = TestType.file)
      ∧ (dirLats r = [] ↔ ∀ s ∈ r.samples, ¬ s.test_type = TestType.directory)
      ∧ (fileLats r = [] → rest.lookup "file_operations" = none)
      ∧ (fileLats r ≠ [] → ∃ b, rest.lookup "file_operations" = some b ∧
          b.map Prod.fst = ["count", "mean", "median", "std_dev", "min", "max"])
      ∧ (dirLats r = [] → rest.lookup "directory_operations" = none)
      ∧ (dirLats r ≠ [] → ∃ b, rest.lookup "directory_operations" = some b ∧
          b.map Prod.fst = ["count", "mean", "median", "std_dev", "min", "max"]) := by
  have he : ¬ r.samples.isEmpty = true := by simpa [List.isEmpty_iff] using h
  have hlat : r.samples.map (fun s => s.latency_ms) ≠ [] := by
    simpa [List.map_eq_nil_iff] using h
  obtain ⟨ov, hov, hovk⟩ := statBlockFull_spec _ hlat
  have hfiff : fileLats r = [] ↔ ∀ s ∈ r.samples, ¬ s.test_type = TestType.file := by
    simp [fileLats, List.map_eq_nil_iff, List.filter_eq_nil_iff]
  have hdiff : dirLats r = [] ↔ ∀ s ∈ r.samples, ¬ s.test_type = TestType.directory := by
    simp [dirLats, List.map_eq_nil_iff, List.filter_eq_nil_iff]
  rcases eq_or_ne (fileLats r) [] with hf | hf
  · have hfb := kindBlock_eq_nil "file_operations" _ hf
    rcases eq_or_ne (dirLats r) [] with hd | hd
    · have hdb := kindBlock_eq_nil "directory_operations" _ hd
      refine ⟨ov, [], ?_, hovk, hfiff, hdiff, fun _ => rfl, fun hc => absurd hf hc,
        fun _ => rfl, fun hc => absurd hd hc⟩
      simp [analyze_results, he, hov, hfb, hdb]
    · obtain ⟨db, hdb, hdbk⟩ := kindBlock_eq_some "directory_operations" _ hd
      refine ⟨ov, [("directory_operations", db)], ?_, hovk, hfiff, hdiff,
        fun _ => rfl, fun hc => absurd hf hc, fun hc => absurd hc hd,
        fun _ => ⟨db, rfl, hdbk⟩⟩
      simp [analyze_results, he, hov, hfb, hdb]
  · obtain ⟨fb, hfb, hfbk⟩ := kindBlock_eq_some "file_operations" _ hf
    rcases eq_or_ne (dirLats r) [] with hd | hd
    · have hdb := kindBlock_eq_nil "directory_operations" _ hd
      refine ⟨ov, [("file_operations", fb)], ?_, hovk, hfiff, hdiff,
        fun hc => absurd hc hf, fun _ => ⟨fb, rfl, hfbk⟩, fun _ => rfl,
        fun hc => absurd hd hc⟩
      simp [analyze_results, he, hov, hfb, hdb]
    · obtain ⟨db, hdb, hdbk⟩ := kindBlock_eq_some "directory_operations" _ hd
      refine ⟨ov, [("file_operations", fb), ("directory_operations", db)], ?_,
        hovk, hfiff, hdiff, fun hc => absurd hc hf, fun _ => ⟨fb, rfl, hfbk⟩,
        fun hc => absurd hc hd, fun _ => ⟨db, rfl, hdbk⟩⟩
      simp [analyze_results, he, hov, hfb, hdb]

/-- A report holding exactly one file sample, as produced by a one-trial
run whose file trial measured 5 ms. -/
def fileOnlyReport : Report :=
  { metadata := mdEx
    test_config := { num_samples := 1, timeout := 30, num_environments := 3 }
    samples := [⟨0, .file, 0, 5, 0⟩]
    summary := { total_samples := 1, timeouts := 0, success_rate := 1 } }

/-- C6 counterexample: on a report whose samples are all of the File kind,
the `file_operations` block exists but carries only the six fields
count, mean, median, std_dev, min, max — it has no `p95` and no `p99`
field, although the claim asserts the per-kind StatBlock has both. -/
theorem file_block_lacks_percentiles :
    ∃ ov b, analyze_results fileOnlyReport =
        some (.stats [("overall", ov), ("file_operations", b)])
      ∧ b.map Prod.fst = ["count", "mean", "median", "std_dev", "min", "max"]
      ∧ "p95" ∉ b.map Prod.fst ∧ "p99" ∉ b.map Prod.fst := by
  have hf : fileLats fileOnlyReport ≠ [] := by decide
  have hd : dirLats fileOnlyReport = [] := by decide
  have hlat : fileOnlyReport.samples.map (fun s => s.latency_ms) ≠ [] := by decide
  have he : ¬ fileOnlyReport.samples.isEmpty = true := by decide
  obtain ⟨ov, hov, hovk⟩ := statBlockFull_spec _ hlat
  obtain ⟨b, hb, hbk⟩ := kindBlock_eq_some "file_operations" _ hf
  have hdb := kindBlock_eq_nil "directory_operations" _ hd
  refine ⟨ov, b, ?_, hbk, ?_, ?_⟩
  · simp [analyze_results, he, hov, hb, hdb]
  · rw [hbk]; decide
  · rw [hbk]; decide

/-- Witness for C6 (amended) at the concrete one-file-sample report. -/
theorem statblock_fields_by_kind_witness :
    fileOnlyReport.samples ≠ [] ∧
    ∃ ov rest, analyze_results fileOnlyReport = some (.stats (("overall", ov) :: rest)) := by
  have h : fileOnlyReport.samples ≠ [] := by decide
  obtain ⟨ov, rest, hmain, _⟩ := statblock_fields_by_kind fileOnlyReport h
  exact ⟨h, ov, rest, hmain⟩
